import Mathlib

/-!
Verification of the lab-equipment lending subsystem of the robohub-academy
repository.

The subsystem lives in four React/Supabase handler functions:
  * `handleSave`          — ComponentsManager: create / update a lab component
  * `handleSubmit`        — LabRequestForm: create a lending request with items
  * `handleAction`        — LabAccessManager: approve or reject a request
  * `handleMarkReturned`  — LabAccessManager: mark an approved request returned

Each handler is embedded as a pure state transformer on a database value.
The Supabase tables are embedded as lists of records; the per-row
`.update().eq(id)` calls of the source are embedded as `List.map` over rows
with a matching id, and the per-item read-modify-write loops as `List.foldl`.
External effects that the source only observes (an insert or update failing
at the database) are passed in as boolean parameters.  Timestamps
(`created_at`, `reviewed_at`, `returned_at`), which the source fills with
the wall clock, are not modelled; no claim depends on their values.
JavaScript numbers holding quantities are embedded as `Int`.
-/

/-- Status of a lending request.  The column is a text field with DB check
constraint `status IN ('pending','approved','rejected')` and default
`'pending'` (migration 20260106143254). -/
inductive Status
  | pending
  | approved
  | rejected
  deriving Repr, DecidableEq

/-- The action argument of `handleAction` in LabAccessManager
(`'approved' | 'rejected'`). -/
inductive ReqAction
  | approved
  | rejected
  deriving Repr, DecidableEq

def ReqAction.toStatus : ReqAction → Status
  | .approved => .approved
  | .rejected => .rejected

/-- A row of the `lab_components` table. -/
structure Component where
  id : Nat
  name : String
  description : Option String
  total_quantity : Int
  available_quantity : Int
  category : Option String
  created_by : Nat
  deriving Repr, DecidableEq

/-- A row of the `lab_request_items` table. -/
structure RequestItem where
  id : Nat
  request_id : Nat
  component_id : Nat
  quantity : Int
  is_returned : Bool
  deriving Repr, DecidableEq

/-- A row of the `lab_access_requests` table. -/
structure LendingRequest where
  id : Nat
  user_id : Nat
  status : Status
  purpose : String
  return_date : String
  group_members : Option String
  admin_notes : Option String
  reviewed_by : Option Nat
  items_returned : Bool
  deriving Repr, DecidableEq

/-- The three tables touched by the lending subsystem. -/
structure DB where
  components : List Component
  requests : List LendingRequest
  items : List RequestItem
  deriving Repr, DecidableEq

/-- How a handler call ends, as observed by the caller: the source surfaces
outcomes through toasts and early returns.  The constructors `stockError`
and `stateError` embed the spec's InsufficientStockError / StateError
taxonomy; no handler of the source ever produces them. -/
inductive Outcome
  | ok
  | dbError
  | warning
  | validation
  | silent
  | stockError (componentName : String)
  | stateError
  deriving Repr, DecidableEq

/-! ## ComponentsManager.handleSave -/

/-- JavaScript `String.prototype.trim()`: strip whitespace from both ends.
Defined structurally over the character list so that it evaluates inside
the kernel. -/
def jsTrim (s : String) : String :=
  ⟨((s.data.dropWhile Char.isWhitespace).reverse.dropWhile Char.isWhitespace).reverse⟩

/-- `handleSave` of ComponentsManager.  `editing` is the
`editingComponent` snapshot taken when the edit dialog was opened
(`none` means the Add dialog).  Source:

  if (!name.trim() || !user) return;
  update path:  quantityDiff = totalQuantity - editingComponent.total_quantity;
                newAvailable = editingComponent.available_quantity + quantityDiff;
                update row: total_quantity := totalQuantity,
                            available_quantity := Math.max(0, newAvailable)
  create path:  insert row: total_quantity := totalQuantity,
                            available_quantity := totalQuantity
-/
def handleSave (db : DB) (editing : Option Component) (name description : String)
    (totalQuantity : Int) (category : String) (user : Option Nat)
    (nextId : Nat) (saveFails : Bool) : DB × Outcome :=
  if jsTrim name = "" ∨ user.isNone then (db, .silent)
  else
    match editing with
    | some ec =>
        if saveFails then (db, .dbError)
        else
          let quantityDiff := totalQuantity - ec.total_quantity
          let newAvailable := ec.available_quantity + quantityDiff
          ({ db with
              components := db.components.map fun c =>
                if c.id = ec.id then
                  { c with
                      name := jsTrim name
                      description := if jsTrim description = "" then none else some (jsTrim description)
                      total_quantity := totalQuantity
                      available_quantity := max 0 newAvailable
                      category := if jsTrim category = "" then none else some (jsTrim category) }
                else c }, .ok)
    | none =>
        if saveFails then (db, .dbError)
        else
          ({ db with
              components := db.components ++
                [{ id := nextId
                   name := jsTrim name
                   description := if jsTrim description = "" then none else some (jsTrim description)
                   total_quantity := totalQuantity
                   available_quantity := totalQuantity
                   category := if jsTrim category = "" then none else some (jsTrim category)
                   created_by := user.getD 0 }] }, .ok)

/-! ## LabRequestForm.handleSubmit -/

/-- An entry of the `selectedComponents` React state of LabRequestForm:
`max_quantity` is the component's `available_quantity` at fetch time. -/
structure SelectedComponent where
  component_id : Nat
  name : String
  quantity : Int
  max_quantity : Int
  deriving Repr, DecidableEq

/-- `handleQuantityChange` of LabRequestForm.  Source:
`quantity := Math.min(Math.max(1, quantity), sc.max_quantity)` on the
matching entry. -/
def handleQuantityChange (selected : List SelectedComponent) (componentId : Nat)
    (quantity : Int) : List SelectedComponent :=
  selected.map fun sc =>
    if sc.component_id = componentId then
      { sc with quantity := min (max 1 quantity) sc.max_quantity }
    else sc

/-- `handleSubmit` of LabRequestForm.  The early returns mirror the source's
client-side checks (`!user`, empty selection, empty purpose, empty return
date); none of them reads the Inventory Store.  `requestFails` and
`itemsFails` stand for the two Supabase inserts failing.  A failing items
insert is surfaced only as a warning toast and the created request row is
kept (the source then resets the form and calls `onSuccess`).  The
request row is inserted without a status, so it receives the DB default
`'pending'`. -/
def handleSubmit (db : DB) (user : Option Nat) (selected : List SelectedComponent)
    (purpose returnDate groupMembers : String) (nextReqId nextItemId : Nat)
    (requestFails itemsFails : Bool) : DB × Outcome :=
  match user with
  | none => (db, .silent)
  | some uid =>
    if selected.isEmpty then (db, .validation)
    else if purpose = "" then (db, .validation)
    else if returnDate = "" then (db, .validation)
    else if requestFails then (db, .dbError)
    else
      let req : LendingRequest :=
        { id := nextReqId
          user_id := uid
          status := .pending
          purpose := purpose
          return_date := returnDate
          group_members := if groupMembers = "" then none else some groupMembers
          admin_notes := none
          reviewed_by := none
          items_returned := false }
      if itemsFails then
        ({ db with requests := db.requests ++ [req] }, .warning)
      else
        let newItems := selected.enum.map fun p =>
          { id := nextItemId + p.1
            request_id := nextReqId
            component_id := p.2.component_id
            quantity := p.2.quantity
            is_returned := false : RequestItem }
        ({ db with
            requests := db.requests ++ [req]
            items := db.items ++ newItems }, .ok)

/-! ## LabAccessManager.handleAction -/

/-- The availability update applied per item on approval.  Source:
`available_quantity := Math.max(0, comp.available_quantity - item.quantity)`. -/
def approveAvail (avail quantity : Int) : Int :=
  max 0 (avail - quantity)

/-- One iteration of the approval loop: a fresh read of the component row
followed by an update of that row (a missing row is left alone, as the
source's `if (comp)` guard does). -/
def decrementFor (comps : List Component) (it : RequestItem) : List Component :=
  comps.map fun c =>
    if c.id = it.component_id then
      { c with available_quantity := approveAvail c.available_quantity it.quantity }
    else c

/-- `handleAction` of LabAccessManager.  `req` and `reqItems` are the
`selectedRequest` snapshot with its fetched items.  On `'approved'` the
source first runs the read-modify-write loop over the items, then updates
the request row; `updateFails` stands for that final update failing, in
which case the decrements have already been issued and are not rolled
back.  The source performs no check of the request's current status and no
re-check of stock before decrementing. -/
def handleAction (db : DB) (req : LendingRequest) (reqItems : List RequestItem)
    (action : ReqAction) (adminNotes : String) (reviewer : Option Nat)
    (updateFails : Bool) : DB × Outcome :=
  let comps :=
    if action = .approved then reqItems.foldl decrementFor db.components
    else db.components
  if updateFails then
    ({ db with components := comps }, .dbError)
  else
    ({ db with
        components := comps
        requests := db.requests.map fun r =>
          if r.id = req.id then
            { r with
                status := action.toStatus
                admin_notes := if adminNotes = "" then none else some adminNotes
                reviewed_by := reviewer }
          else r }, .ok)

/-! ## LabAccessManager.handleMarkReturned -/

/-- The availability update applied per item on return.  Source:
`available_quantity := Math.min(comp.total_quantity, comp.available_quantity + item.quantity)`. -/
def returnAvail (total avail quantity : Int) : Int :=
  min total (avail + quantity)

/-- One iteration of the return loop: fresh read of the component row, then
the clamped increment. -/
def incrementFor (comps : List Component) (it : RequestItem) : List Component :=
  comps.map fun c =>
    if c.id = it.component_id then
      { c with available_quantity := returnAvail c.total_quantity c.available_quantity it.quantity }
    else c

/-- `handleMarkReturned` of LabAccessManager.  `confirmed` is the result of
the `confirm(...)` browser dialog.  The loop increments each component and
marks each item returned; afterwards the request row is updated, and
`updateFails` stands for that final update failing (the item and component
writes have already been issued).  The source performs no check that the
request is approved or not yet returned. -/
def handleMarkReturned (db : DB) (req : LendingRequest) (reqItems : List RequestItem)
    (confirmed : Bool) (updateFails : Bool) : DB × Outcome :=
  if !confirmed then (db, .silent)
  else
    let comps := reqItems.foldl incrementFor db.components
    let items := db.items.map fun dbIt =>
      if reqItems.any fun it => it.id = dbIt.id then { dbIt with is_returned := true }
      else dbIt
    if updateFails then
      ({ db with components := comps, items := items }, .dbError)
    else
      ({ db with
          components := comps
          items := items
          requests := db.requests.map fun r =>
            if r.id = req.id then { r with items_returned := true } else r }, .ok)

/-! ## Observers -/

/-- The stock invariant of the spec:
`0 ≤ available_quantity ≤ total_quantity`. -/
def Component.invOK (c : Component) : Prop :=
  0 ≤ c.available_quantity ∧ c.available_quantity ≤ c.total_quantity

instance (c : Component) : Decidable c.invOK := by
  unfold Component.invOK; infer_instance

/-- Availability of the component with the given id, if present. -/
def availOf (db : DB) (cid : Nat) : Option Int :=
  (db.components.find? fun c => c.id = cid).map fun c => c.available_quantity

/-- Status of the request with the given id, if present. -/
def statusOf (db : DB) (rid : Nat) : Option Status :=
  (db.requests.find? fun r => r.id = rid).map fun r => r.status

/-- items_returned flag of the request with the given id, if present. -/
def returnedOf (db : DB) (rid : Nat) : Option Bool :=
  (db.requests.find? fun r => r.id = rid).map fun r => r.items_returned

/-! ## The operations of the subsystem as a single step type -/

/-- One invocation of a handler of the lending subsystem, with all of its
arguments (including the environment booleans for failing store calls). -/
inductive AdminOp
  | save (editing : Option Component) (name description : String) (totalQuantity : Int)
      (category : String) (user : Option Nat) (nextId : Nat) (saveFails : Bool)
  | action (req : LendingRequest) (reqItems : List RequestItem) (act : ReqAction)
      (adminNotes : String) (reviewer : Option Nat) (updateFails : Bool)
  | markReturned (req : LendingRequest) (reqItems : List RequestItem)
      (confirmed : Bool) (updateFails : Bool)
  | submit (user : Option Nat) (selected : List SelectedComponent)
      (purpose returnDate groupMembers : String) (nextReqId nextItemId : Nat)
      (requestFails itemsFails : Bool)

/-- Dispatch an operation to its handler. -/
def applyOp (db : DB) : AdminOp → DB × Outcome
  | .save e n d t c u i f => handleSave db e n d t c u i f
  | .action r its a notes rev f => handleAction db r its a notes rev f
  | .markReturned r its conf f => handleMarkReturned db r its conf f
  | .submit u sel p rd gm nr ni rf itf => handleSubmit db u sel p rd gm nr ni rf itf

/-- The inputs under which an operation can arise from the UI: quantities of
request items are positive (they are inserted through the clamp of
`handleQuantityChange`), a submitted total quantity is non-negative, and an
edit dialog's snapshot was read from a store satisfying the stock
invariant. -/
def AdminOp.wellFormed : AdminOp → Prop
  | .save none _ _ t _ _ _ _ => 0 ≤ t
  | .save (some ec) _ _ t _ _ _ _ => 0 ≤ t ∧ ec.invOK
  | .action _ its _ _ _ _ => ∀ it ∈ its, 0 ≤ it.quantity
  | .markReturned _ its _ _ => ∀ it ∈ its, 0 ≤ it.quantity
  | .submit _ _ _ _ _ _ _ _ _ => True

instance : ∀ op : AdminOp, Decidable op.wellFormed := by
  intro op
  rcases op with ⟨e, _, _, t, _, _, _, _⟩ | _ | _ | _
  · rcases e with _ | ec <;> · unfold AdminOp.wellFormed; infer_instance
  all_goals · unfold AdminOp.wellFormed; infer_instance

/-! ## Single-component stock traces

The effect of the approval and return loops on one component's availability
counter, as a trace of per-item updates using the same `approveAvail` and
`returnAvail` functions the handlers apply. -/

/-- One per-item stock mutation on a fixed component. -/
inductive StockOp
  | approve (q : Int)
  | ret (q : Int)
  deriving Repr, DecidableEq

/-- Run a trace of stock mutations on a component with the given
`total_quantity`, starting from the given availability. -/
def runOps (total : Int) : Int → List StockOp → Int
  | avail, [] => avail
  | avail, .approve q :: rest => runOps total (approveAvail avail q) rest
  | avail, .ret q :: rest => runOps total (returnAvail total avail q) rest

/-- The spec's net change: minus the approved quantities plus the returned
quantities. -/
def netDelta : List StockOp → Int
  | [] => 0
  | .approve q :: rest => netDelta rest - q
  | .ret q :: rest => netDelta rest + q

/-- A trace never engages a clamp: every approval is covered by the current
availability and every return stays within the total. -/
def noClamp (total : Int) : Int → List StockOp → Bool
  | _, [] => true
  | avail, .approve q :: rest => decide (q ≤ avail) && noClamp total (approveAvail avail q) rest
  | avail, .ret q :: rest => decide (avail + q ≤ total) && noClamp total (returnAvail total avail q) rest

/-! ## Concrete fixtures used by the closed theorems -/

def mkComp (id : Nat) (total avail : Int) : Component :=
  { id := id, name := "C" ++ toString id, description := none,
    total_quantity := total, available_quantity := avail,
    category := none, created_by := 0 }

def mkReq (id : Nat) (st : Status) (ret : Bool) : LendingRequest :=
  { id := id, user_id := 7, status := st, purpose := "project",
    return_date := "d", group_members := none, admin_notes := none,
    reviewed_by := none, items_returned := ret }

def mkItem (id rid cid : Nat) (q : Int) : RequestItem :=
  { id := id, request_id := rid, component_id := cid, quantity := q,
    is_returned := false }

def dbC1 : DB := { components := [mkComp 1 5 5], requests := [], items := [] }

def opC1 : AdminOp :=
  .action (mkReq 1 .pending false) [mkItem 10 1 1 2] .approved "" (some 9) false

def dbC1b : DB :=
  { components := [mkComp 1 5 5], requests := [mkReq 1 .pending false],
    items := [mkItem 10 1 1 2] }

def dbC2 : DB :=
  { components := [mkComp 1 1 0], requests := [mkReq 1 .pending false],
    items := [mkItem 10 1 1 1] }

def dbC3 : DB :=
  { components := [mkComp 1 2 2],
    requests := [mkReq 1 .pending false, mkReq 2 .pending false],
    items := [mkItem 10 1 1 2, mkItem 11 2 1 2] }

def dbC4 : DB := { components := [mkComp 1 5 5], requests := [], items := [] }

def selC4 : SelectedComponent :=
  { component_id := 1, name := "C1", quantity := 2, max_quantity := 5 }

def dbC4b : DB := { components := [mkComp 1 5 5], requests := [], items := [] }

def dbC5 : DB :=
  { components := [mkComp 1 5 3], requests := [mkReq 1 .approved false],
    items := [mkItem 10 1 1 2] }

def dbH0 : DB := { components := [mkComp 1 5 5], requests := [], items := [] }

def selH : SelectedComponent :=
  { component_id := 1, name := "C1", quantity := 2, max_quantity := 5 }

def resH1 : DB × Outcome := handleSubmit dbH0 (some 7) [selH] "project" "d" "" 1 10 false false

def reqH : LendingRequest := mkReq 1 .pending false

def itemH : RequestItem := mkItem 10 1 1 2

def resH2 : DB × Outcome := handleAction resH1.1 reqH [itemH] .approved "" (some 9) false

def resH3 : DB × Outcome := handleMarkReturned resH2.1 (mkReq 1 .approved false) [itemH] true false

def dbC7 : DB := { components := [mkComp 1 5 1], requests := [], items := [] }

def selC7 : SelectedComponent :=
  { component_id := 1, name := "C1", quantity := 2, max_quantity := 2 }

def dbC7w : DB := { components := [], requests := [], items := [] }

def selC7w : SelectedComponent :=
  { component_id := 1, name := "C1", quantity := 3, max_quantity := 5 }

def dbS0 : DB :=
  { components := [mkComp 1 3 1], requests := [mkReq 1 .approved false],
    items := [mkItem 10 1 1 2] }

def dbS1 : DB := (handleSave dbS0 (some (mkComp 1 3 1)) "C1" "" 2 "" (some 1) 0 false).1

def resS2 : DB × Outcome :=
  handleMarkReturned dbS1 (mkReq 1 .approved false) [mkItem 10 1 1 2] true false

def dbC8w : DB :=
  { components := [mkComp 1 3 1], requests := [mkReq 1 .approved false],
    items := [mkItem 10 1 1 2] }

def dbC10 : DB := { components := [mkComp 1 5 5], requests := [], items := [] }

/-! ## Helper lemmas -/

/-- One iteration of the approval loop preserves the stock invariant:
the decrement is clamped below at 0 and leaves `total_quantity` alone. -/
theorem decrementFor_invOK {comps : List Component} {it : RequestItem}
    (h : ∀ c ∈ comps, c.invOK) (hq : 0 ≤ it.quantity) :
    ∀ c ∈ decrementFor comps it, c.invOK := by
  intro c hc
  simp only [decrementFor, List.mem_map] at hc
  obtain ⟨a, ha, rfl⟩ := hc
  have hai := h a ha
  simp only [Component.invOK, approveAvail] at hai ⊢
  split
  · simp only
    omega
  · exact hai

/-- One iteration of the return loop preserves the stock invariant:
the increment is clamped above at `total_quantity`. -/
theorem incrementFor_invOK {comps : List Component} {it : RequestItem}
    (h : ∀ c ∈ comps, c.invOK) (hq : 0 ≤ it.quantity) :
    ∀ c ∈ incrementFor comps it, c.invOK := by
  intro c hc
  simp only [incrementFor, List.mem_map] at hc
  obtain ⟨a, ha, rfl⟩ := hc
  have hai := h a ha
  simp only [Component.invOK, returnAvail] at hai ⊢
  split
  · simp only
    omega
  · exact hai

/-- The whole approval loop preserves the stock invariant. -/
theorem foldl_decrementFor_invOK {its : List RequestItem} {comps : List Component}
    (hq : ∀ it ∈ its, 0 ≤ it.quantity) (h : ∀ c ∈ comps, c.invOK) :
    ∀ c ∈ its.foldl decrementFor comps, c.invOK := by
  induction its generalizing comps with
  | nil => simpa using h
  | cons it rest ih =>
      simp only [List.foldl_cons]
      exact ih (fun i hi => hq i (List.mem_cons_of_mem _ hi))
        (decrementFor_invOK h (hq it (List.mem_cons_self _ _)))

/-- The whole return loop preserves the stock invariant. -/
theorem foldl_incrementFor_invOK {its : List RequestItem} {comps : List Component}
    (hq : ∀ it ∈ its, 0 ≤ it.quantity) (h : ∀ c ∈ comps, c.invOK) :
    ∀ c ∈ its.foldl incrementFor comps, c.invOK := by
  induction its generalizing comps with
  | nil => simpa using h
  | cons it rest ih =>
      simp only [List.foldl_cons]
      exact ih (fun i hi => hq i (List.mem_cons_of_mem _ hi))
        (incrementFor_invOK h (hq it (List.mem_cons_self _ _)))

/-- Effect of one approval-loop iteration on the row it targets. -/
theorem find?_decrementFor (comps : List Component) (it : RequestItem) :
    ((decrementFor comps it).find? fun c => c.id = it.component_id)
      = (comps.find? fun c => c.id = it.component_id).map fun c =>
          { c with available_quantity := approveAvail c.available_quantity it.quantity } := by
  induction comps with
  | nil => rfl
  | cons c rest ih =>
      by_cases h : c.id = it.component_id
      · simp [decrementFor, List.find?_cons, h]
      · simp only [decrementFor, List.map_cons] at ih ⊢
        rw [List.find?_cons_of_neg, List.find?_cons_of_neg, ih]
        · simpa using h
        · simp [h]

/-- Effect of one return-loop iteration on the row it targets. -/
theorem find?_incrementFor (comps : List Component) (it : RequestItem) :
    ((incrementFor comps it).find? fun c => c.id = it.component_id)
      = (comps.find? fun c => c.id = it.component_id).map fun c =>
          { c with available_quantity := returnAvail c.total_quantity c.available_quantity it.quantity } := by
  induction comps with
  | nil => rfl
  | cons c rest ih =>
      by_cases h : c.id = it.component_id
      · simp [incrementFor, List.find?_cons, h]
      · simp only [incrementFor, List.map_cons] at ih ⊢
        rw [List.find?_cons_of_neg, List.find?_cons_of_neg, ih]
        · simpa using h
        · simp [h]

/-- `handleSubmit` never surfaces an insufficient-stock error, whatever its
inputs and whatever the store does. -/
theorem handleSubmit_no_stockError (db : DB) (user : Option Nat)
    (selected : List SelectedComponent) (purpose returnDate gm : String)
    (nr ni : Nat) (rf itf : Bool) :
    ∀ n, (handleSubmit db user selected purpose returnDate gm nr ni rf itf).2 ≠ .stockError n := by
  intro n
  cases user with
  | none => simp [handleSubmit]
  | some uid =>
      simp only [handleSubmit]
      split
      · simp
      · split
        · simp
        · split
          · simp
          · split
            · simp
            · cases itf <;> simp

/-! ## Claim C1 -/

/-- Claim C1 (as stated) is false on the code: starting from a component
satisfying `0 ≤ available ≤ total`, an `updateComponent` submitting
`total_quantity = -1` (reachable, since the dialog state is
`parseInt(input) || 1` and the HTML `min` attribute does not constrain a
typed value) yields `available_quantity = 0 > -1 = total_quantity`: the
update path clamps availability only from below and never checks the
submitted total. -/
theorem C1_counterexample :
    (∀ c ∈ dbC1.components, c.invOK) ∧
    ∃ c' ∈ (handleSave dbC1 (some (mkComp 1 5 5)) "Arduino" "" (-1) "" (some 1) 2 false).1.components,
      ¬ c'.invOK := by decide

/-- Claim C1 (amended): after every operation of the subsystem
(createComponent and updateComponent via `handleSave`, approve and reject
via `handleAction`, `handleMarkReturned`, and request creation via
`handleSubmit`), every component satisfies `0 ≤ available_quantity ≤
total_quantity`, provided every component satisfied the bound before the
operation and the operation is well-formed: its item quantities are
non-negative, a submitted total quantity is non-negative, and an edit
snapshot satisfied the bound. -/
theorem C1_invariant_preserved (db : DB) (op : AdminOp)
    (hdb : ∀ c ∈ db.components, c.invOK) (hop : op.wellFormed) :
    ∀ c ∈ (applyOp db op).1.components, c.invOK := by
  cases op with
  | save editing name description t category user nextId f =>
      simp only [applyOp, handleSave]
      split
      · exact hdb
      · cases editing with
        | some ec =>
            obtain ⟨ht, hec⟩ := hop
            cases f
            · simp only [Bool.false_eq_true, if_false]
              intro c hc
              simp only [List.mem_map] at hc
              obtain ⟨a, ha, rfl⟩ := hc
              have hai := hdb a ha
              simp only [Component.invOK] at hai hec ⊢
              split
              · simp only
                omega
              · exact hai
            · simpa using hdb
        | none =>
            have ht : (0:Int) ≤ t := hop
            cases f
            · simp only [Bool.false_eq_true, if_false]
              intro c hc
              simp only [List.mem_append, List.mem_singleton] at hc
              rcases hc with hc | rfl
              · exact hdb c hc
              · simp only [Component.invOK]
                exact ⟨ht, le_refl _⟩
            · simpa using hdb
  | action req its act notes rev f =>
      simp only [applyOp, handleAction]
      have hcomps : ∀ c ∈ (if act = .approved then its.foldl decrementFor db.components
          else db.components), c.invOK := by
        split
        · exact foldl_decrementFor_invOK hop hdb
        · exact hdb
      cases f
      · simpa using hcomps
      · simpa using hcomps
  | markReturned req its conf f =>
      simp only [applyOp, handleMarkReturned]
      cases conf
      · simpa using hdb
      · have hcomps := foldl_incrementFor_invOK hop hdb
        cases f
        · simpa using hcomps
        · simpa using hcomps
  | submit u sel p rd gm nr ni rf itf =>
      have hc : (applyOp db (.submit u sel p rd gm nr ni rf itf)).1.components
          = db.components := by
        simp only [applyOp, handleSubmit]
        cases u with
        | none => rfl
        | some uid =>
            cases rf <;> cases itf <;>
              simp only [Bool.false_eq_true, Bool.true_eq_false, if_false, if_true] <;>
              (repeat' split) <;> rfl
      rw [hc]
      exact hdb

/-- Witness for C1: a concrete valid store and a concrete approval. -/
theorem C1_invariant_preserved_witness :
    (∀ c ∈ dbC1b.components, c.invOK) ∧ opC1.wellFormed ∧
    ∀ c ∈ (applyOp dbC1b opC1).1.components, c.invOK :=
  ⟨by decide, by decide, C1_invariant_preserved dbC1b opC1 (by decide) (by decide)⟩

/-! ## Claim C2 -/

/-- Claim C2 (as stated) is false on the code: approving a pending request
whose single item asks quantity 1 while the component's availability is 0
does not fail with InsufficientStockError — the call succeeds, the request
becomes approved, and the decrement is silently clamped at 0. -/
theorem C2_counterexample :
    statusOf dbC2 1 = some .pending ∧ availOf dbC2 1 = some 0 ∧
    (mkItem 10 1 1 1).quantity = 1 ∧
    (handleAction dbC2 (mkReq 1 .pending false) [mkItem 10 1 1 1] .approved "" (some 9) false).2 = .ok ∧
    statusOf (handleAction dbC2 (mkReq 1 .pending false) [mkItem 10 1 1 1] .approved "" (some 9) false).1 1 = some .approved ∧
    availOf (handleAction dbC2 (mkReq 1 .pending false) [mkItem 10 1 1 1] .approved "" (some 9) false).1 1 = some 0 := by
  decide

/-- Claim C2 (amended): `handleAction('approved')` performs no availability
re-check at approval time: whatever the stock, the call (with a healthy
store) returns success and never an insufficient-stock error, the request's
row becomes approved, and for a single-item request the targeted
component's availability becomes `max 0 (old - quantity)` — a clamped
decrement rather than an abort. -/
theorem C2_approve_unchecked (db : DB) (req : LendingRequest) (reqItems : List RequestItem)
    (it : RequestItem) (notes : String) (rev : Option Nat) :
    (handleAction db req reqItems .approved notes rev false).2 = .ok ∧
    (∀ n, (handleAction db req reqItems .approved notes rev false).2 ≠ .stockError n) ∧
    (availOf (handleAction db req [it] .approved notes rev false).1 it.component_id
      = (availOf db it.component_id).map fun a => max 0 (a - it.quantity)) ∧
    (∀ r ∈ (handleAction db req reqItems .approved notes rev false).1.requests,
      r.id = req.id → r.status = .approved) := by
  refine ⟨rfl, fun n => by simp [handleAction], ?_, ?_⟩
  · have h1 : (handleAction db req [it] .approved notes rev false).1.components
        = decrementFor db.components it := by
      simp [handleAction]
    simp only [availOf, h1, find?_decrementFor]
    cases db.components.find? fun c => c.id = it.component_id with
    | none => rfl
    | some c => simp [approveAvail]
  · intro r hr hid
    simp only [handleAction, Bool.false_eq_true, if_false, List.mem_map] at hr
    obtain ⟨r0, hr0, rfl⟩ := hr
    by_cases h : r0.id = req.id
    · simp [h, ReqAction.toStatus]
    · simp only [if_neg h] at hid ⊢
      exact absurd hid h

/-! ## Claim C3 -/

/-- Claim C3 (as stated) is false on the code: with availability 2 and two
pending requests each asking quantity 2, approving both (a legal schedule of
the two concurrent calls, here run to completion one after the other) makes
both calls succeed and both requests approved — not exactly one success and
one InsufficientStockError. -/
theorem C3_counterexample :
    availOf dbC3 1 = some 2 ∧
    (handleAction dbC3 (mkReq 1 .pending false) [mkItem 10 1 1 2] .approved "" (some 9) false).2 = .ok ∧
    (handleAction (handleAction dbC3 (mkReq 1 .pending false) [mkItem 10 1 1 2] .approved "" (some 9) false).1
        (mkReq 2 .pending false) [mkItem 11 2 1 2] .approved "" (some 9) false).2 = .ok ∧
    statusOf (handleAction (handleAction dbC3 (mkReq 1 .pending false) [mkItem 10 1 1 2] .approved "" (some 9) false).1
        (mkReq 2 .pending false) [mkItem 11 2 1 2] .approved "" (some 9) false).1 1 = some .approved ∧
    statusOf (handleAction (handleAction dbC3 (mkReq 1 .pending false) [mkItem 10 1 1 2] .approved "" (some 9) false).1
        (mkReq 2 .pending false) [mkItem 11 2 1 2] .approved "" (some 9) false).1 2 = some .approved ∧
    availOf (handleAction (handleAction dbC3 (mkReq 1 .pending false) [mkItem 10 1 1 2] .approved "" (some 9) false).1
        (mkReq 2 .pending false) [mkItem 11 2 1 2] .approved "" (some 9) false).1 1 = some 0 := by
  decide

/-- Claim C3 (amended): two approve calls on the same store (here in the
serialized schedule, one legal outcome of the two concurrent calls) both
succeed whatever the stock: neither ever fails with an insufficient-stock
error, and afterwards every request carrying either id is approved —
double-reservation is not prevented. -/
theorem C3_both_approvals_succeed (db : DB) (rA rB : LendingRequest)
    (itsA itsB : List RequestItem) (notes : String) (rev : Option Nat) :
    (handleAction db rA itsA .approved notes rev false).2 = .ok ∧
    (handleAction (handleAction db rA itsA .approved notes rev false).1 rB itsB .approved notes rev false).2 = .ok ∧
    (∀ n, (handleAction db rA itsA .approved notes rev false).2 ≠ .stockError n ∧
          (handleAction (handleAction db rA itsA .approved notes rev false).1 rB itsB .approved notes rev false).2 ≠ .stockError n) ∧
    (∀ r ∈ (handleAction (handleAction db rA itsA .approved notes rev false).1 rB itsB .approved notes rev false).1.requests,
      r.id = rA.id ∨ r.id = rB.id → r.status = .approved) := by
  refine ⟨rfl, rfl, fun n => ⟨by simp [handleAction], by simp [handleAction]⟩, ?_⟩
  intro r hr hid
  simp only [handleAction, Bool.false_eq_true, if_false, List.mem_map] at hr
  obtain ⟨r1, hr1, rfl⟩ := hr
  obtain ⟨r0, hr0, rfl⟩ := hr1
  by_cases ha : r0.id = rA.id <;> by_cases hb : r0.id = rB.id <;>
    simp_all [ReqAction.toStatus]

/-! ## Claim C4 -/

/-- Claim C4 (as stated) is false on the code: when the items insert fails
after the request insert, `handleSubmit` keeps the request row, surfaces
only a warning, and leaves a LendingRequest with zero RequestItems
observable. -/
theorem C4_counterexample :
    (handleSubmit dbC4 (some 7) [selC4] "project" "d" "" 1 10 false true).2 = .warning ∧
    (∃ r ∈ (handleSubmit dbC4 (some 7) [selC4] "project" "d" "" 1 10 false true).1.requests,
      r.id = 1 ∧ r.status = .pending) ∧
    (handleSubmit dbC4 (some 7) [selC4] "project" "d" "" 1 10 false true).1.items = [] := by
  decide

/-- Claim C4 (amended): only the first step of each operation is atomic.
If the request insert itself fails, nothing is created; but if the items
insert fails after it, the request row stays with zero items (partial
creation is observable); and if approve's final ledger update fails, the
already-issued inventory decrements are not rolled back — the components end
exactly as in a successful approval while the ledger is untouched. -/
theorem C4_failure_not_rolled_back (db : DB) (uid : Nat) (selected : List SelectedComponent)
    (purpose returnDate gm : String) (nextReqId nextItemId : Nat)
    (req : LendingRequest) (reqItems : List RequestItem) (notes : String) (rev : Option Nat)
    (hsel : selected.isEmpty = false) (hp : purpose ≠ "") (hrd : returnDate ≠ "")
    (hfresh : ∀ itm ∈ db.items, itm.request_id ≠ nextReqId) :
    (handleSubmit db (some uid) selected purpose returnDate gm nextReqId nextItemId true false
      = (db, .dbError)) ∧
    ((handleSubmit db (some uid) selected purpose returnDate gm nextReqId nextItemId false true).2
      = .warning ∧
     (∃ r ∈ (handleSubmit db (some uid) selected purpose returnDate gm nextReqId nextItemId false true).1.requests,
        r.id = nextReqId) ∧
     (∀ itm ∈ (handleSubmit db (some uid) selected purpose returnDate gm nextReqId nextItemId false true).1.items,
        itm.request_id ≠ nextReqId)) ∧
    ((handleAction db req reqItems .approved notes rev true).2 = .dbError ∧
     (handleAction db req reqItems .approved notes rev true).1.requests = db.requests ∧
     (handleAction db req reqItems .approved notes rev true).1.components
       = (handleAction db req reqItems .approved notes rev false).1.components) := by
  refine ⟨?_, ⟨?_, ?_, ?_⟩, rfl, rfl, rfl⟩
  · simp [handleSubmit, hsel, hp, hrd]
  · simp [handleSubmit, hsel, hp, hrd]
  · simp only [handleSubmit, hsel, hp, hrd, Bool.false_eq_true, if_false, if_neg hp, if_neg hrd]
    exact ⟨{ id := nextReqId, user_id := uid, status := .pending, purpose := purpose,
             return_date := returnDate, group_members := if gm = "" then none else some gm,
             admin_notes := none, reviewed_by := none, items_returned := false },
           by simp, rfl⟩
  · simp only [handleSubmit, hsel, hp, hrd, Bool.false_eq_true, if_false, if_neg hp, if_neg hrd]
    simpa using hfresh

/-- Witness for C4: a concrete submission whose request insert fails leaves
the store untouched. -/
theorem C4_failure_not_rolled_back_witness :
    ([selC4].isEmpty = false ∧ "project" ≠ "" ∧ "d" ≠ "" ∧
      (∀ itm ∈ dbC4b.items, itm.request_id ≠ 1)) ∧
    (handleSubmit dbC4b (some 7) [selC4] "project" "d" "" 1 10 true false = (dbC4b, .dbError)) :=
  ⟨⟨by decide, by decide, by decide, by decide⟩,
   (C4_failure_not_rolled_back dbC4b 7 [selC4] "project" "d" "" 1 10
      (mkReq 1 .pending false) [] "" none (by decide) (by decide) (by decide) (by decide)).1⟩

/-! ## Claim C5 -/

/-- Claim C5 (as stated) is false on the code: re-approving an
already-approved request does not fail with StateError and is not
mutation-free — the call succeeds and decrements the component again
(availability 3 drops to 1). -/
theorem C5_counterexample :
    statusOf dbC5 1 = some .approved ∧ availOf dbC5 1 = some 3 ∧
    (handleAction dbC5 (mkReq 1 .approved false) [mkItem 10 1 1 2] .approved "" (some 9) false).2 = .ok ∧
    (handleAction dbC5 (mkReq 1 .approved false) [mkItem 10 1 1 2] .approved "" (some 9) false).2 ≠ .stateError ∧
    availOf (handleAction dbC5 (mkReq 1 .approved false) [mkItem 10 1 1 2] .approved "" (some 9) false).1 1 = some 1 := by
  decide

/-- Claim C5 (amended): neither `handleAction` nor `handleMarkReturned`
checks the request's lifecycle state at all: their results are unchanged if
the request's status or items_returned flag is replaced by anything, and no
call ever fails with a state error. The pending-only and approved-only
gating exists solely in the UI, which hides the buttons. -/
theorem C5_no_lifecycle_check (db : DB) (req : LendingRequest) (reqItems : List RequestItem)
    (act : ReqAction) (notes : String) (rev : Option Nat) (f conf : Bool)
    (s : Status) (b : Bool) :
    handleAction db { req with status := s, items_returned := b } reqItems act notes rev f
      = handleAction db req reqItems act notes rev f ∧
    (handleAction db req reqItems act notes rev f).2 ≠ .stateError ∧
    handleMarkReturned db { req with status := s, items_returned := b } reqItems conf f
      = handleMarkReturned db req reqItems conf f ∧
    (handleMarkReturned db req reqItems conf f).2 ≠ .stateError := by
  refine ⟨rfl, ?_, rfl, ?_⟩
  · cases f <;> simp [handleAction]
  · cases conf <;> cases f <;> simp [handleMarkReturned]

/-! ## Claim C6 -/

/-- Claim C6: the happy path behaves as specified. From total=5,
available=5: submitting a request for quantity 2 leaves availability at 5
and the request pending; approving sets availability to 3 and status to
approved; marking returned restores availability to 5 and sets
items_returned. -/
theorem C6_happy_path :
    (resH1.2 = .ok ∧ statusOf resH1.1 1 = some .pending ∧ availOf resH1.1 1 = some 5 ∧
      resH1.1.items = [itemH]) ∧
    (resH2.2 = .ok ∧ statusOf resH2.1 1 = some .approved ∧ availOf resH2.1 1 = some 3) ∧
    (resH3.2 = .ok ∧ returnedOf resH3.1 1 = some true ∧ availOf resH3.1 1 = some 5) := by
  decide

/-! ## Claim C7 -/

/-- Claim C7 (as stated) is false on the code: with current availability 1
(stock shrank after the form fetched availability 2), submitting a request
for quantity 2 does not fail with InsufficientStockError — it succeeds and
creates the request and its over-stock item. -/
theorem C7_counterexample :
    availOf dbC7 1 = some 1 ∧ selC7.quantity = 2 ∧
    (handleSubmit dbC7 (some 7) [selC7] "project" "d" "" 1 10 false false).2 = .ok ∧
    (∃ r ∈ (handleSubmit dbC7 (some 7) [selC7] "project" "d" "" 1 10 false false).1.requests,
      r.id = 1 ∧ r.status = .pending) ∧
    (∃ itm ∈ (handleSubmit dbC7 (some 7) [selC7] "project" "d" "" 1 10 false false).1.items,
      itm.request_id = 1 ∧ itm.quantity = 2) := by
  decide

/-- Claim C7 (amended): `handleSubmit` performs no stock validation and can
never fail with an insufficient-stock error; quantity bounds are enforced
only client-side by `handleQuantityChange`, which keeps every selected
quantity within `[1, max_quantity]` where `max_quantity` is the
availability at fetch time, not at submit time. -/
theorem C7_no_create_stock_validation (db : DB) (user : Option Nat)
    (selected : List SelectedComponent) (purpose returnDate gm : String)
    (nr ni : Nat) (rf itf : Bool)
    (sel : List SelectedComponent) (cid : Nat) (q : Int)
    (hsel : ∀ sc ∈ sel, 1 ≤ sc.quantity ∧ sc.quantity ≤ sc.max_quantity ∧ 1 ≤ sc.max_quantity) :
    (∀ n, (handleSubmit db user selected purpose returnDate gm nr ni rf itf).2 ≠ .stockError n) ∧
    (∀ sc ∈ handleQuantityChange sel cid q,
      1 ≤ sc.quantity ∧ sc.quantity ≤ sc.max_quantity ∧ 1 ≤ sc.max_quantity) := by
  refine ⟨handleSubmit_no_stockError db user selected purpose returnDate gm nr ni rf itf, ?_⟩
  intro sc hsc
  simp only [handleQuantityChange, List.mem_map] at hsc
  obtain ⟨a, ha, rfl⟩ := hsc
  have := hsel a ha
  split
  · simp only
    refine ⟨?_, ?_, this.2.2⟩ <;> omega
  · exact this

/-- Witness for C7: a concrete quantity change stays within bounds. -/
theorem C7_no_create_stock_validation_witness :
    (∀ sc ∈ [selC7w], 1 ≤ sc.quantity ∧ sc.quantity ≤ sc.max_quantity ∧ 1 ≤ sc.max_quantity) ∧
    (∀ sc ∈ handleQuantityChange [selC7w] 1 99,
      1 ≤ sc.quantity ∧ sc.quantity ≤ sc.max_quantity ∧ 1 ≤ sc.max_quantity) :=
  ⟨by decide,
   (C7_no_create_stock_validation dbC7w (some 7) [selC7w] "project" "d" "" 1 10 false false
      [selC7w] 1 99 (by decide)).2⟩

/-! ## Claim C8 -/

/-- Claim C8: `handleMarkReturned` increments each item's component by the
item's quantity clamped to not exceed `total_quantity`.  Conjuncts: (1)
after any return, no component's availability exceeds its total (given the
invariant held before and quantities are non-negative); (2) for a
single-item return, the targeted row's availability becomes
`min total (old + quantity)` exactly; (3) the spec's over-return scenario:
total=3 with available=1 (2 reserved), an admin edit lowering total to 2
drops availability to 0, and marking the 2 units returned yields
availability 2 — the total, not 3. -/
theorem C8_return_clamped (db : DB) (req : LendingRequest) (reqItems : List RequestItem)
    (conf f : Bool) (it : RequestItem)
    (hq : ∀ i ∈ reqItems, 0 ≤ i.quantity) (hdb : ∀ c ∈ db.components, c.invOK) :
    (∀ c ∈ (handleMarkReturned db req reqItems conf f).1.components,
      c.available_quantity ≤ c.total_quantity) ∧
    (((handleMarkReturned db req [it] true false).1.components.find? fun c => c.id = it.component_id)
      = (db.components.find? fun c => c.id = it.component_id).map fun c =>
          { c with available_quantity := min c.total_quantity (c.available_quantity + it.quantity) }) ∧
    (availOf dbS1 1 = some 0 ∧ availOf resS2.1 1 = some 2) := by
  refine ⟨?_, ?_, by decide, by decide⟩
  · intro c hc
    have hcomps : ∀ c ∈ (handleMarkReturned db req reqItems conf f).1.components, c.invOK := by
      cases conf with
      | false => simpa [handleMarkReturned] using hdb
      | true =>
          have h1 := foldl_incrementFor_invOK hq hdb
          cases f <;> simpa [handleMarkReturned] using h1
    exact (hcomps c hc).2
  · have h1 : (handleMarkReturned db req [it] true false).1.components
        = incrementFor db.components it := by
      simp [handleMarkReturned]
    rw [h1, find?_incrementFor]
    simp [returnAvail]

/-- Witness for C8: a concrete return keeps availability within the total. -/
theorem C8_return_clamped_witness :
    ((∀ i ∈ [mkItem 10 1 1 2], (0:Int) ≤ i.quantity) ∧
      (∀ c ∈ dbC8w.components, c.invOK)) ∧
    (∀ c ∈ (handleMarkReturned dbC8w (mkReq 1 .approved false) [mkItem 10 1 1 2] true false).1.components,
      c.available_quantity ≤ c.total_quantity) :=
  ⟨⟨by decide, by decide⟩,
   (C8_return_clamped dbC8w (mkReq 1 .approved false) [mkItem 10 1 1 2] true false
      (mkItem 10 1 1 2) (by decide) (by decide)).1⟩

/-! ## Claim C9 -/

/-- Claim C9 (as stated) is false on the code: on a component with total=5
and available=2, the (always-successful) approval of quantity 5 changes
availability by -2, not by -5, because the decrement clamps at 0. -/
theorem C9_conservation_counterexample :
    runOps 5 2 [.approve 5] ≠ 2 + netDelta [.approve 5] := by decide

/-- Claim C9 (amended): for any trace of per-item approve/return stock
updates on one component in which no clamp engages (each approved quantity
is at most the availability at its moment, and each return stays within the
total), the final availability is the initial one plus the net delta: minus
the approved quantities plus the returned quantities. -/
theorem C9_conservation (total avail : Int) (ops : List StockOp)
    (h : noClamp total avail ops = true) :
    runOps total avail ops = avail + netDelta ops := by
  induction ops generalizing avail with
  | nil => simp [runOps, netDelta]
  | cons op rest ih =>
      cases op with
      | approve q =>
          simp only [noClamp, Bool.and_eq_true, decide_eq_true_eq] at h
          obtain ⟨hle, hrest⟩ := h
          rw [runOps, netDelta, ih _ hrest]
          simp only [approveAvail]
          omega
      | ret q =>
          simp only [noClamp, Bool.and_eq_true, decide_eq_true_eq] at h
          obtain ⟨hle, hrest⟩ := h
          rw [runOps, netDelta, ih _ hrest]
          simp only [returnAvail]
          omega

/-- Witness for C9: a concrete clamp-free trace obeys conservation. -/
theorem C9_conservation_witness :
    noClamp 5 5 [.approve 2, .ret 2, .approve 3] = true ∧
    runOps 5 5 [.approve 2, .ret 2, .approve 3]
      = 5 + netDelta [.approve 2, .ret 2, .approve 3] :=
  ⟨by decide, C9_conservation 5 5 [.approve 2, .ret 2, .approve 3] (by decide)⟩

/-! ## Claim C10 -/

/-- Claim C10: calling the component save with a name that trims to the
empty string (empty or only whitespace) is a silent no-op — `handleSave`
returns before any store call, mutating nothing and surfacing no error. -/
theorem C10_blank_name_silent (db : DB) (editing : Option Component)
    (name description : String) (t : Int) (category : String) (user : Option Nat)
    (nextId : Nat) (f : Bool) (h : jsTrim name = "") :
    handleSave db editing name description t category user nextId f = (db, .silent) := by
  unfold handleSave
  rw [if_pos (Or.inl h)]

/-- Witness for C10: a whitespace-only name leaves a concrete store
untouched. -/
theorem C10_blank_name_silent_witness :
    jsTrim " " = "" ∧
    handleSave dbC10 none " " "d" 5 "cat" (some 1) 7 false = (dbC10, .silent) :=
  ⟨by decide, C10_blank_name_silent dbC10 none " " "d" 5 "cat" (some 1) 7 false (by decide)⟩
